import Mathlib

deriving instance DecidableEq for Except

/-!
Verification of the staking and reward ledger specified for the
defi-stake-yield-brownie repository, together with the repository's
deployment helper scripts (`scripts/helpful_scripts.py`).

The on-chain ledger (TokenFarm) is not part of the repository's source
tree: only its unit tests and deployment helpers are.  The ledger is
therefore modelled from the specification (whitelisting, staking,
valuation, reward issuance, access control), while `get_account`,
`get_contract`, `contract_to_mock` and `fund_with_link` are embedded
directly from `scripts/helpful_scripts.py`.
-/

namespace StakeYield

/-- Association-list lookup, used to model Solidity mappings and Python
dicts: returns the value bound to the first occurrence of the key. -/
def lookupA {α β : Type} [DecidableEq α] : List (α × β) → α → Option β
  | [], _ => none
  | (k, v) :: rest, a => if a = k then some v else lookupA rest a

/-- Association-list insert-or-overwrite, used to model mapping writes. -/
def insertA {α β : Type} [DecidableEq α] : List (α × β) → α → β → List (α × β)
  | [], a, b => [(a, b)]
  | (k, v) :: rest, a, b => if a = k then (a, b) :: rest else (k, v) :: insertA rest a b

theorem lookupA_insertA_self {α β : Type} [DecidableEq α]
    (l : List (α × β)) (a : α) (b : β) : lookupA (insertA l a b) a = some b := by
  induction l with
  | nil => simp [insertA, lookupA]
  | cons kv rest ih =>
      obtain ⟨k, v⟩ := kv
      by_cases h : a = k
      · simp [insertA, lookupA, h]
      · simp [insertA, lookupA, h, ih]

theorem lookupA_insertA_ne {α β : Type} [DecidableEq α]
    (l : List (α × β)) (a c : α) (b : β) (h : c ≠ a) :
    lookupA (insertA l a b) c = lookupA l c := by
  induction l with
  | nil => simp [insertA, lookupA, h]
  | cons kv rest ih =>
      obtain ⟨k, v⟩ := kv
      by_cases hak : a = k
      · subst hak
        simp [insertA, lookupA, h]
      · by_cases hck : c = k
        · simp [insertA, lookupA, hak, hck]
        · simp [insertA, lookupA, hak, hck, ih]

/-- Modelled from the spec: the maximum unsigned-integer balance the
ledger can record (uint256); arithmetic beyond it must fail (I5). -/
def UINT_MAX : Nat := 2 ^ 256 - 1

/-- Mirrors `DECIMALS = 18` in `scripts/helpful_scripts.py`. -/
def DECIMALS : Nat := 18

/-- Mirrors `INITIAL_PRICE_FEED_VALUE = 2000000000000000000000` in
`scripts/helpful_scripts.py` (2000 * 10^18). -/
def INITIAL_PRICE_FEED_VALUE : Nat := 2000000000000000000000

/-- Modelled from the spec: the denomination oracles report in
(10^DECIMALS), used to normalise `balance * price` to reward units. -/
def DENOM : Nat := 10 ^ DECIMALS

/-- Modelled from the spec: the full ledger state of the missing
TokenFarm contract — Owner, PriceFeedBinding, StakeRecord,
UniqueTokenCount, StakerRoster, plus the reward-token balances and the
ledger's reward treasury consumed by `issue_rewards`.  Accounts, token
ids and oracle references are opaque identities, modelled as `Nat`. -/
structure Ledger where
  owner : Nat
  priceFeed : List (Nat × Nat)
  stakeRecord : List ((Nat × Nat) × Nat)
  uniqueTokenCount : List (Nat × Nat)
  stakers : List Nat
  rewardBalance : List (Nat × Nat)
  treasury : Nat
deriving DecidableEq, Repr

/-- Modelled from the spec: the ledger at creation — Owner set, all
mappings empty, roster empty, a given reward-token treasury. -/
def initLedger (o : Nat) (tr : Nat) : Ledger :=
  { owner := o, priceFeed := [], stakeRecord := [], uniqueTokenCount := [],
    stakers := [], rewardBalance := [], treasury := tr }

/-- Modelled from the spec (§7 error taxonomy): errors of `stake`. -/
inductive StakeError
  | TokenNotWhitelisted
  | ZeroAmount
  | Overflow
deriving DecidableEq, Repr

/-- Modelled from the spec (§7): error of owner-gated operations. -/
inductive AccessError
  | AccessDenied
deriving DecidableEq, Repr

/-- Modelled from the spec (§7): errors of `total_value`. -/
inductive ValuationError
  | MissingOracle
  | Overflow
deriving DecidableEq, Repr

/-- Modelled from the spec (§7): errors of `issue_rewards`. -/
inductive IssueError
  | AccessDenied
  | TransferFailed
  | Valuation (e : ValuationError)
deriving DecidableEq, Repr

/-- Modelled from the spec (§7): error of `staker_at`. -/
inductive RosterError
  | IndexOutOfRange
deriving DecidableEq, Repr

/-- Read accessor: StakeRecord[account, token], 0 when absent. -/
def balance_of (s : Ledger) (a t : Nat) : Nat :=
  (lookupA s.stakeRecord (a, t)).getD 0

/-- Read accessor: UniqueTokenCount[account], 0 when absent. -/
def unique_token_count (s : Ledger) (a : Nat) : Nat :=
  (lookupA s.uniqueTokenCount a).getD 0

/-- Read accessor: reward-token balance of an account, 0 when absent. -/
def reward_balance_of (s : Ledger) (a : Nat) : Nat :=
  (lookupA s.rewardBalance a).getD 0

/-- Read accessor: `staker_at(index)` fails with `IndexOutOfRange` past
the roster's end (spec §4.3). -/
def staker_at (s : Ledger) (i : Nat) : Except RosterError Nat :=
  if h : i < s.stakers.length then Except.ok (s.stakers.get ⟨i, h⟩)
  else Except.error RosterError.IndexOutOfRange

/-- Modelled from the spec (§4.2/§4.3): owner-gated binding of a price
feed — inserts or overwrites PriceFeedBinding[token] = oracle. -/
def set_price_feed_contract (s : Ledger) (caller token oracle : Nat) :
    Except AccessError Ledger :=
  if caller = s.owner then
    Except.ok { s with priceFeed := insertA s.priceFeed token oracle }
  else Except.error AccessError.AccessDenied

/-- Modelled from the spec (§4.1): owner-gated ownership transfer. -/
def transfer_ownership (s : Ledger) (caller newOwner : Nat) :
    Except AccessError Ledger :=
  if caller = s.owner then Except.ok { s with owner := newOwner }
  else Except.error AccessError.AccessDenied

/-- Modelled from the spec (§4.3): the successful-stake state update —
balance accumulates, UniqueTokenCount bumps on the first non-zero stake
of this token by this caller, the roster appends the caller if absent. -/
def stakeApply (s : Ledger) (caller token amount : Nat) : Ledger :=
  { s with
    stakeRecord := insertA s.stakeRecord (caller, token) (balance_of s caller token + amount),
    uniqueTokenCount :=
      insertA s.uniqueTokenCount caller
        (if balance_of s caller token = 0 then unique_token_count s caller + 1
         else unique_token_count s caller),
    stakers := if caller ∈ s.stakers then s.stakers else s.stakers ++ [caller] }

/-- Modelled from the spec (§4.3): `stake` — whitelist gate first (P1:
an unregistered token always fails `TokenNotWhitelisted`), then the
positive-amount precondition, then checked accumulation (I5). -/
def stake (s : Ledger) (caller token amount : Nat) : Except StakeError Ledger :=
  match lookupA s.priceFeed token with
  | none => Except.error StakeError.TokenNotWhitelisted
  | some _ =>
      if amount = 0 then Except.error StakeError.ZeroAmount
      else if UINT_MAX < balance_of s caller token + amount then
        Except.error StakeError.Overflow
      else Except.ok (stakeApply s caller token amount)

/-- The distinct tokens with a positive StakeRecord for an account,
read off the stake-record association list. -/
def accountTokensAux (sr : List ((Nat × Nat) × Nat)) (a : Nat) : List Nat :=
  (sr.filter (fun e => e.1.1 == a && e.2 != 0)).map (fun e => e.1.2)

/-- Modelled from the spec (§4.4): value of one staked token —
`MissingOracle` when the binding is absent, else
`balance * price / 10^18` with a uint overflow check on the product. -/
def token_value (pf : List (Nat × Nat)) (sr : List ((Nat × Nat) × Nat))
    (price : Nat → Nat) (a t : Nat) : Except ValuationError Nat :=
  match lookupA pf t with
  | none => Except.error ValuationError.MissingOracle
  | some oracle =>
      let bal := (lookupA sr (a, t)).getD 0
      if UINT_MAX < bal * price oracle then Except.error ValuationError.Overflow
      else Except.ok (bal * price oracle / DENOM)

/-- Modelled from the spec (§4.4): checked accumulation of per-token
values. -/
def sumValues (pf : List (Nat × Nat)) (sr : List ((Nat × Nat) × Nat))
    (price : Nat → Nat) (a : Nat) : List Nat → Except ValuationError Nat
  | [] => Except.ok 0
  | t :: ts =>
      match token_value pf sr price a t with
      | Except.error e => Except.error e
      | Except.ok v =>
          match sumValues pf sr price a ts with
          | Except.error e => Except.error e
          | Except.ok rest =>
              if UINT_MAX < v + rest then Except.error ValuationError.Overflow
              else Except.ok (v + rest)

/-- Modelled from the spec (§4.4): `total_value(account)` — a pure read
of StakeRecord and PriceFeedBinding against the oracle prices. -/
def total_value (s : Ledger) (price : Nat → Nat) (a : Nat) :
    Except ValuationError Nat :=
  sumValues s.priceFeed s.stakeRecord price a (accountTokensAux s.stakeRecord a)

/-- Modelled from the spec (§4.4): pay one staker — value the stake,
then transfer that many reward units from the treasury; an insufficient
treasury fails with `TransferFailed`. -/
def payOne (st : Ledger) (price : Nat → Nat) (a : Nat) : Except IssueError Ledger :=
  match total_value st price a with
  | Except.error e => Except.error (IssueError.Valuation e)
  | Except.ok v =>
      if st.treasury < v then Except.error IssueError.TransferFailed
      else Except.ok { st with
        treasury := st.treasury - v,
        rewardBalance := insertA st.rewardBalance a (reward_balance_of st a + v) }

/-- Modelled from the spec (§4.4): sequence reward payments over the
roster in order, aborting the whole batch on the first failure. -/
def payAll (price : Nat → Nat) : Ledger → List Nat → Except IssueError Ledger
  | st, [] => Except.ok st
  | st, a :: rest =>
      match payOne st price a with
      | Except.error e => Except.error e
      | Except.ok st1 => payAll price st1 rest

/-- Modelled from the spec (§4.4): owner-gated `issue_rewards` —
iterates StakerRoster in insertion order, one transfer per staker,
all-or-nothing. -/
def issue_rewards (s : Ledger) (price : Nat → Nat) (caller : Nat) :
    Except IssueError Ledger :=
  if caller = s.owner then payAll price s s.stakers
  else Except.error IssueError.AccessDenied

/-- The state left in force by a call: the new ledger on success, the
unchanged pre-state on failure (transactional all-or-nothing, §5). -/
def applyE {ε : Type} (s : Ledger) (r : Except ε Ledger) : Ledger :=
  match r with
  | Except.ok s1 => s1
  | Except.error _ => s

theorem stake_ok_iff (s : Ledger) (c t x : Nat) (s1 : Ledger) :
    stake s c t x = Except.ok s1 ↔
      (∃ r, lookupA s.priceFeed t = some r) ∧ x ≠ 0 ∧
        ¬ UINT_MAX < balance_of s c t + x ∧ s1 = stakeApply s c t x := by
  unfold stake
  cases h : lookupA s.priceFeed t with
  | none => simp [h]
  | some r =>
      by_cases hx : x = 0
      · simp [hx]
      · by_cases hov : UINT_MAX < balance_of s c t + x
        · simp [hx, hov]
        · simp [hx, hov, eq_comm]

theorem spf_ok_iff (s : Ledger) (c t r : Nat) (s1 : Ledger) :
    set_price_feed_contract s c t r = Except.ok s1 ↔
      c = s.owner ∧ s1 = { s with priceFeed := insertA s.priceFeed t r } := by
  unfold set_price_feed_contract
  by_cases h : c = s.owner
  · simp [h, eq_comm]
  · simp [h]

theorem transfer_ownership_ok_iff (s : Ledger) (c n : Nat) (s1 : Ledger) :
    transfer_ownership s c n = Except.ok s1 ↔
      c = s.owner ∧ s1 = { s with owner := n } := by
  unfold transfer_ownership
  by_cases h : c = s.owner
  · simp [h, eq_comm]
  · simp [h]

theorem balance_of_stakeApply_self (s : Ledger) (c t x : Nat) :
    balance_of (stakeApply s c t x) c t = balance_of s c t + x := by
  simp [balance_of, stakeApply, lookupA_insertA_self]

theorem unique_count_stakeApply_self (s : Ledger) (c t x : Nat) :
    unique_token_count (stakeApply s c t x) c =
      (if balance_of s c t = 0 then unique_token_count s c + 1
       else unique_token_count s c) := by
  simp [unique_token_count, stakeApply, lookupA_insertA_self]

theorem stakeApply_priceFeed (s : Ledger) (c t x : Nat) :
    (stakeApply s c t x).priceFeed = s.priceFeed := rfl

theorem stakeApply_stakers (s : Ledger) (c t x : Nat) :
    (stakeApply s c t x).stakers =
      (if c ∈ s.stakers then s.stakers else s.stakers ++ [c]) := rfl

theorem payOne_ok_fields (st : Ledger) (price : Nat → Nat) (a : Nat) (st1 : Ledger)
    (h : payOne st price a = Except.ok st1) :
    st1.owner = st.owner ∧ st1.priceFeed = st.priceFeed ∧
      st1.stakeRecord = st.stakeRecord ∧ st1.uniqueTokenCount = st.uniqueTokenCount ∧
      st1.stakers = st.stakers := by
  unfold payOne at h
  split at h
  · exact absurd h (by simp)
  · split at h
    · exact absurd h (by simp)
    · obtain rfl : _ = st1 := Except.ok.inj h
      simp

theorem payAll_ok_fields (price : Nat → Nat) (l : List Nat) (st st1 : Ledger)
    (h : payAll price st l = Except.ok st1) :
    st1.owner = st.owner ∧ st1.priceFeed = st.priceFeed ∧
      st1.stakeRecord = st.stakeRecord ∧ st1.uniqueTokenCount = st.uniqueTokenCount ∧
      st1.stakers = st.stakers := by
  induction l generalizing st with
  | nil =>
      obtain rfl : st = st1 := by simpa [payAll] using h
      simp
  | cons a rest ih =>
      unfold payAll at h
      cases hp : payOne st price a with
      | error e => rw [hp] at h; exact absurd h (by simp)
      | ok stm =>
          rw [hp] at h
          obtain ⟨h1, h2, h3, h4, h5⟩ := payOne_ok_fields st price a stm hp
          obtain ⟨g1, g2, g3, g4, g5⟩ := ih stm h
          exact ⟨g1.trans h1, g2.trans h2, g3.trans h3, g4.trans h4, g5.trans h5⟩

theorem payAll_nil (price : Nat → Nat) (st : Ledger) :
    payAll price st [] = Except.ok st := rfl

theorem payAll_cons (price : Nat → Nat) (st : Ledger) (a : Nat) (rest : List Nat) :
    payAll price st (a :: rest) =
      (match payOne st price a with
       | Except.error e => Except.error e
       | Except.ok st1 => payAll price st1 rest) := rfl

theorem payAll_append (price : Nat → Nat) (l1 l2 : List Nat) (st : Ledger) :
    payAll price st (l1 ++ l2) =
      (match payAll price st l1 with
       | Except.ok st1 => payAll price st1 l2
       | Except.error e => Except.error e) := by
  induction l1 generalizing st with
  | nil => simp [payAll_nil]
  | cons a rest ih =>
      rw [List.cons_append, payAll_cons, payAll_cons]
      cases hp : payOne st price a with
      | error e => simp
      | ok st1 => simp [ih st1]

/-- C2: every owner-gated operation (set_price_feed_contract,
issue_rewards, transfer_ownership) invoked by a caller different from
the current Owner fails with AccessDenied, and the state left in force
is the unchanged pre-state; when the caller equals Owner,
set_price_feed_contract succeeds and sets PriceFeedBinding[token] to
the given oracle reference. -/
theorem owner_gate_c2 (s : Ledger) (price : Nat → Nat) (caller t r n : Nat)
    (h : caller ≠ s.owner) :
    set_price_feed_contract s caller t r = Except.error AccessError.AccessDenied ∧
    issue_rewards s price caller = Except.error IssueError.AccessDenied ∧
    transfer_ownership s caller n = Except.error AccessError.AccessDenied ∧
    applyE s (set_price_feed_contract s caller t r) = s ∧
    applyE s (issue_rewards s price caller) = s ∧
    applyE s (transfer_ownership s caller n) = s ∧
    set_price_feed_contract s s.owner t r =
      Except.ok { s with priceFeed := insertA s.priceFeed t r } ∧
    lookupA (insertA s.priceFeed t r) t = some r := by
  refine ⟨?_, ?_, ?_, ?_, ?_, ?_, ?_, ?_⟩ <;>
    simp [set_price_feed_contract, issue_rewards, transfer_ownership, applyE, h,
      lookupA_insertA_self]

/-- Witness for C2 at a concrete non-owner caller. -/
theorem owner_gate_c2_witness :
    set_price_feed_contract (initLedger 0 5) 1 2 3 = Except.error AccessError.AccessDenied ∧
    issue_rewards (initLedger 0 5) (fun _ => 0) 1 = Except.error IssueError.AccessDenied ∧
    transfer_ownership (initLedger 0 5) 1 4 = Except.error AccessError.AccessDenied ∧
    applyE (initLedger 0 5) (set_price_feed_contract (initLedger 0 5) 1 2 3) = initLedger 0 5 ∧
    applyE (initLedger 0 5) (issue_rewards (initLedger 0 5) (fun _ => 0) 1) = initLedger 0 5 ∧
    applyE (initLedger 0 5) (transfer_ownership (initLedger 0 5) 1 4) = initLedger 0 5 ∧
    set_price_feed_contract (initLedger 0 5) (initLedger 0 5).owner 2 3 =
      Except.ok { initLedger 0 5 with priceFeed := insertA (initLedger 0 5).priceFeed 2 3 } ∧
    lookupA (insertA (initLedger 0 5).priceFeed 2 3) 2 = some 3 :=
  owner_gate_c2 (initLedger 0 5) (fun _ => 0) 1 2 3 4 (by decide)

/-- C3: staking a token with no PriceFeedBinding entry fails with
TokenNotWhitelisted for every caller and every amount, the state left
in force is the unchanged pre-state (so StakeRecord, UniqueTokenCount
and StakerRoster are untouched), and in particular a zero balance for
that (caller, token) pair stays zero. -/
theorem whitelist_gate_c3 (s : Ledger) (caller t amount : Nat)
    (h : lookupA s.priceFeed t = none) :
    stake s caller t amount = Except.error StakeError.TokenNotWhitelisted ∧
    applyE s (stake s caller t amount) = s ∧
    balance_of (applyE s (stake s caller t amount)) caller t = balance_of s caller t ∧
    (balance_of s caller t = 0 →
      balance_of (applyE s (stake s caller t amount)) caller t = 0) := by
  have h1 : stake s caller t amount = Except.error StakeError.TokenNotWhitelisted := by
    unfold stake
    rw [h]
  refine ⟨h1, ?_, ?_, ?_⟩ <;> simp [h1, applyE]

/-- Witness for C3: staking unwhitelisted token 7 on a fresh ledger. -/
theorem whitelist_gate_c3_witness :
    stake (initLedger 0 0) 5 7 3 = Except.error StakeError.TokenNotWhitelisted ∧
    applyE (initLedger 0 0) (stake (initLedger 0 0) 5 7 3) = initLedger 0 0 ∧
    balance_of (applyE (initLedger 0 0) (stake (initLedger 0 0) 5 7 3)) 5 7 =
      balance_of (initLedger 0 0) 5 7 ∧
    (balance_of (initLedger 0 0) 5 7 = 0 →
      balance_of (applyE (initLedger 0 0) (stake (initLedger 0 0) 5 7 3)) 5 7 = 0) :=
  whitelist_gate_c3 (initLedger 0 0) 5 7 3 (by decide)

/-- C4: on a whitelisted token, staking a then b (both positive, a + b
within the unsigned range) from a zero starting balance succeeds both
times and yields balance a + b — stake accumulates and is not
idempotent. -/
theorem stake_accumulates_c4 (s : Ledger) (a t x y r : Nat)
    (hw : lookupA s.priceFeed t = some r) (hx : x ≠ 0) (hy : y ≠ 0)
    (h0 : balance_of s a t = 0) (hrange : x + y ≤ UINT_MAX) :
    ∃ s1 s2, stake s a t x = Except.ok s1 ∧ stake s1 a t y = Except.ok s2 ∧
      balance_of s2 a t = x + y := by
  refine ⟨stakeApply s a t x, stakeApply (stakeApply s a t x) a t y, ?_, ?_, ?_⟩
  · exact (stake_ok_iff s a t x _).mpr ⟨⟨r, hw⟩, hx, by omega, rfl⟩
  · refine (stake_ok_iff _ a t y _).mpr ⟨⟨r, ?_⟩, hy, ?_, rfl⟩
    · rw [stakeApply_priceFeed]; exact hw
    · rw [balance_of_stakeApply_self, h0]; omega
  · rw [balance_of_stakeApply_self, balance_of_stakeApply_self, h0]
    omega

/-- Witness for C4 on a concrete ledger with token 2 whitelisted. -/
theorem stake_accumulates_c4_witness :
    ∃ s1 s2,
      stake { initLedger 0 0 with priceFeed := [(2, 3)] } 1 2 10 = Except.ok s1 ∧
      stake s1 1 2 32 = Except.ok s2 ∧ balance_of s2 1 2 = 10 + 32 :=
  stake_accumulates_c4 { initLedger 0 0 with priceFeed := [(2, 3)] } 1 2 10 32 3
    (by decide) (by decide) (by decide) (by decide) (by decide)

/-- C5: a successful stake bumps UniqueTokenCount[caller] by exactly 1
when it is the caller's first non-zero stake of that token, and leaves
it unchanged otherwise; in particular an account's first-ever stake of
its first token leaves unique_token_count at 1. -/
theorem unique_count_c5 (s : Ledger) (c t x : Nat) (s1 : Ledger)
    (h : stake s c t x = Except.ok s1) :
    unique_token_count s1 c =
      (if balance_of s c t = 0 then unique_token_count s c + 1
       else unique_token_count s c) ∧
    (balance_of s c t = 0 → unique_token_count s c = 0 →
      unique_token_count s1 c = 1) := by
  obtain ⟨-, -, -, rfl⟩ := (stake_ok_iff s c t x s1).mp h
  refine ⟨unique_count_stakeApply_self s c t x, fun h0 hc => ?_⟩
  rw [unique_count_stakeApply_self, if_pos h0, hc]

/-- Witness for C5: the first stake of token 2 by account 1. -/
theorem unique_count_c5_witness :
    unique_token_count (stakeApply { initLedger 0 0 with priceFeed := [(2, 3)] } 1 2 10) 1 =
      (if balance_of { initLedger 0 0 with priceFeed := [(2, 3)] } 1 2 = 0 then
        unique_token_count { initLedger 0 0 with priceFeed := [(2, 3)] } 1 + 1
       else unique_token_count { initLedger 0 0 with priceFeed := [(2, 3)] } 1) ∧
    (balance_of { initLedger 0 0 with priceFeed := [(2, 3)] } 1 2 = 0 →
      unique_token_count { initLedger 0 0 with priceFeed := [(2, 3)] } 1 = 0 →
      unique_token_count (stakeApply { initLedger 0 0 with priceFeed := [(2, 3)] } 1 2 10) 1 = 1) :=
  unique_count_c5 { initLedger 0 0 with priceFeed := [(2, 3)] } 1 2 10
    (stakeApply { initLedger 0 0 with priceFeed := [(2, 3)] } 1 2 10) (by decide)

/-- C8: total_value is a pure, deterministic read — its result depends
only on StakeRecord, PriceFeedBinding and the oracle prices, so any two
states agreeing on those fields (and a fortiori two calls on the same
state) give the same result, and no ledger state is produced. -/
theorem total_value_deterministic_c8 (s1 s2 : Ledger) (price : Nat → Nat) (a : Nat)
    (hsr : s1.stakeRecord = s2.stakeRecord) (hpf : s1.priceFeed = s2.priceFeed) :
    total_value s1 price a = total_value s2 price a := by
  unfold total_value
  rw [hsr, hpf]

/-- A concrete state used to witness C8. -/
def c8StateA : Ledger :=
  { initLedger 0 0 with priceFeed := [(2, 3)], stakeRecord := [((1, 2), 5)] }

/-- A second concrete state for C8, differing from `c8StateA` in owner,
treasury and roster but agreeing on StakeRecord and PriceFeedBinding. -/
def c8StateB : Ledger :=
  { initLedger 9 77 with priceFeed := [(2, 3)], stakeRecord := [((1, 2), 5)], stakers := [1] }

/-- Witness for C8: the two states value account 1 identically. -/
theorem total_value_deterministic_c8_witness :
    total_value c8StateA (fun _ => 10 ^ 18) 1 = total_value c8StateB (fun _ => 10 ^ 18) 1 :=
  total_value_deterministic_c8 c8StateA c8StateB (fun _ => 10 ^ 18) 1 (by decide) (by decide)

/-- Modelled from the spec: the ledger states reachable from creation
by the ledger's mutating operations (stake, price-feed binding,
ownership transfer, reward issuance). -/
inductive Reachable : Ledger → Prop
  | init (o tr : Nat) : Reachable (initLedger o tr)
  | stake_step (s s1 : Ledger) (c t x : Nat) :
      Reachable s → stake s c t x = Except.ok s1 → Reachable s1
  | bind_step (s s1 : Ledger) (c t r : Nat) :
      Reachable s → set_price_feed_contract s c t r = Except.ok s1 → Reachable s1
  | owner_step (s s1 : Ledger) (c n : Nat) :
      Reachable s → transfer_ownership s c n = Except.ok s1 → Reachable s1
  | issue_step (s s1 : Ledger) (price : Nat → Nat) (c : Nat) :
      Reachable s → issue_rewards s price c = Except.ok s1 → Reachable s1

theorem issue_ok_stakers (s : Ledger) (price : Nat → Nat) (c : Nat) (s1 : Ledger)
    (h : issue_rewards s price c = Except.ok s1) : s1.stakers = s.stakers := by
  unfold issue_rewards at h
  split at h
  · exact (payAll_ok_fields price s.stakers s s1 h).2.2.2.2
  · exact absurd h (by simp)

theorem reachable_roster_nodup (s : Ledger) (h : Reachable s) : s.stakers.Nodup := by
  induction h with
  | init o tr => simp [initLedger]
  | stake_step s s1 c t x hr heq ih =>
      obtain ⟨-, -, -, rfl⟩ := (stake_ok_iff s c t x s1).mp heq
      rw [stakeApply_stakers]
      by_cases hm : c ∈ s.stakers
      · rwa [if_pos hm]
      · rw [if_neg hm, List.nodup_append]
        refine ⟨ih, List.nodup_singleton c, fun a ha hb => ?_⟩
        rw [List.mem_singleton] at hb
        subst hb
        exact hm ha
  | bind_step s s1 c t r hr heq ih =>
      obtain ⟨-, rfl⟩ := (spf_ok_iff s c t r s1).mp heq
      exact ih
  | owner_step s s1 c n hr heq ih =>
      obtain ⟨-, rfl⟩ := (transfer_ownership_ok_iff s c n s1).mp heq
      exact ih
  | issue_step s s1 price c hr heq ih =>
      rw [issue_ok_stakers s price c s1 heq]
      exact ih

/-- C6: in every reachable state the StakerRoster holds each account at
most once; a successful stake leaves the roster unchanged when the
caller is already on it and appends the caller at the end otherwise
(insertion order), so the first-ever staker ends up at staker_at 0. -/
theorem roster_append_once_c6 (s : Ledger) (h : Reachable s) :
    s.stakers.Nodup ∧
    ∀ c t x s1, stake s c t x = Except.ok s1 →
      (c ∈ s.stakers → s1.stakers = s.stakers) ∧
      (c ∉ s.stakers → s1.stakers = s.stakers ++ [c]) ∧
      (s.stakers = [] → staker_at s1 0 = Except.ok c) := by
  refine ⟨reachable_roster_nodup s h, fun c t x s1 heq => ?_⟩
  obtain ⟨-, -, -, rfl⟩ := (stake_ok_iff s c t x s1).mp heq
  refine ⟨fun hm => by rw [stakeApply_stakers, if_pos hm],
    fun hm => by rw [stakeApply_stakers, if_neg hm], fun hnil => ?_⟩
  have hm : c ∉ s.stakers := by rw [hnil]; simp
  have hs : (stakeApply s c t x).stakers = [c] := by
    rw [stakeApply_stakers, if_neg hm, hnil]
    rfl
  simp [staker_at, hs]

/-- Witness for C6 at the freshly created ledger. -/
theorem roster_append_once_c6_witness :
    (initLedger 0 0).stakers.Nodup ∧
    ∀ c t x s1, stake (initLedger 0 0) c t x = Except.ok s1 →
      (c ∈ (initLedger 0 0).stakers → s1.stakers = (initLedger 0 0).stakers) ∧
      (c ∉ (initLedger 0 0).stakers → s1.stakers = (initLedger 0 0).stakers ++ [c]) ∧
      ((initLedger 0 0).stakers = [] → staker_at s1 0 = Except.ok c) :=
  roster_append_once_c6 (initLedger 0 0) (Reachable.init 0 0)

/-- C7: issue_rewards processes StakerRoster in insertion order and is
all-or-nothing — if the reward transfer to the staker at position k
fails (treasury too small for that staker's value) after the stakers
before it were payable, the entire call evaluates to
IssueError.TransferFailed, so no state is produced and the payments to
stakers 1..k-1 do not take effect (the pre-state stays in force). -/
theorem issue_rewards_atomic_c7 (s st1 : Ledger) (price : Nat → Nat)
    (l1 l2 : List Nat) (a v : Nat)
    (hroster : s.stakers = l1 ++ a :: l2)
    (h1 : payAll price s l1 = Except.ok st1)
    (hv : total_value st1 price a = Except.ok v)
    (hshort : st1.treasury < v) :
    issue_rewards s price s.owner = Except.error IssueError.TransferFailed ∧
    applyE s (issue_rewards s price s.owner) = s := by
  have happ : payAll price s (l1 ++ a :: l2) = payAll price st1 (a :: l2) := by
    rw [payAll_append, h1]
  have hmain : issue_rewards s price s.owner = Except.error IssueError.TransferFailed := by
    unfold issue_rewards
    rw [if_pos rfl, hroster, happ, payAll_cons]
    unfold payOne
    rw [hv]
    simp [hshort]
  refine ⟨hmain, ?_⟩
  rw [hmain]
  rfl

/-- The concrete two-staker ledger used to witness C7: a treasury large
enough for the first staker but not the second. -/
def c7State : Ledger :=
  { owner := 0, priceFeed := [(5, 7)],
    stakeRecord := [((1, 5), 10 ^ 18), ((2, 5), 10 ^ 18)],
    uniqueTokenCount := [(1, 1), (2, 1)], stakers := [1, 2],
    rewardBalance := [], treasury := 2000 * 10 ^ 18 }

/-- The oracle prices used to witness C7. -/
def c7Price : Nat → Nat := fun r => if r = 7 then 2000 * 10 ^ 18 else 0

/-- The intermediate state of the C7 witness after paying staker 1. -/
def c7Mid : Ledger :=
  { c7State with treasury := 0, rewardBalance := [(1, 2000 * 10 ^ 18)] }

/-- Witness for C7: with two stakers each worth 2000 * 10^18 and a
treasury of only 2000 * 10^18, issue_rewards fails as a whole. -/
theorem issue_rewards_atomic_c7_witness :
    issue_rewards c7State c7Price c7State.owner = Except.error IssueError.TransferFailed ∧
    applyE c7State (issue_rewards c7State c7Price c7State.owner) = c7State :=
  issue_rewards_atomic_c7 c7State c7Mid c7Price [1] [] 2 (2000 * 10 ^ 18)
    (by decide) (by decide) (by decide) (by decide)

/-- Scenario A, state after the owner binds the token's price feed. -/
def c1S1 (o token oracle tr : Nat) : Ledger :=
  { owner := o, priceFeed := [(token, oracle)], stakeRecord := [],
    uniqueTokenCount := [], stakers := [], rewardBalance := [], treasury := tr }

/-- Scenario A, state after account x stakes 10^18 units. -/
def c1S2 (o x token oracle tr : Nat) : Ledger :=
  { owner := o, priceFeed := [(token, oracle)], stakeRecord := [((x, token), 10 ^ 18)],
    uniqueTokenCount := [(x, 1)], stakers := [x], rewardBalance := [], treasury := tr }

/-- Scenario A, state after the owner issues rewards. -/
def c1S3 (o x token oracle tr : Nat) : Ledger :=
  { owner := o, priceFeed := [(token, oracle)], stakeRecord := [((x, token), 10 ^ 18)],
    uniqueTokenCount := [(x, 1)], stakers := [x],
    rewardBalance := [(x, 2000 * 10 ^ 18)], treasury := tr - 2000 * 10 ^ 18 }

/-- C1: on a fresh ledger the owner binds a token to an oracle whose
price is 2000 * 10^18 per unit; an account stakes 1 * 10^18 units of
that (single whitelisted) token; then total_value of the account is
2000 * 10^18, and an owner-invoked issue_rewards succeeds and increases
the account's reward-token balance by exactly 2000 * 10^18. -/
theorem scenario_a_c1 (o x token oracle tr : Nat) (price : Nat → Nat)
    (hp : price oracle = 2000 * 10 ^ 18) (htr : 2000 * 10 ^ 18 ≤ tr) :
    ∃ s1 s2 s3,
      set_price_feed_contract (initLedger o tr) o token oracle = Except.ok s1 ∧
      stake s1 x token (10 ^ 18) = Except.ok s2 ∧
      total_value s2 price x = Except.ok (2000 * 10 ^ 18) ∧
      issue_rewards s2 price o = Except.ok s3 ∧
      reward_balance_of s3 x = reward_balance_of s2 x + 2000 * 10 ^ 18 := by
  have h1 : set_price_feed_contract (initLedger o tr) o token oracle =
      Except.ok (c1S1 o token oracle tr) := by
    simp [set_price_feed_contract, initLedger, insertA, c1S1]
  have hbal : balance_of (c1S1 o token oracle tr) x token = 0 := by
    simp [balance_of, c1S1, lookupA]
  have h2 : stake (c1S1 o token oracle tr) x token (10 ^ 18) =
      Except.ok (c1S2 o x token oracle tr) := by
    refine (stake_ok_iff _ x token _ _).mpr ⟨⟨oracle, ?_⟩, by norm_num, ?_, ?_⟩
    · simp [c1S1, lookupA]
    · rw [hbal]
      norm_num [UINT_MAX]
    · simp [stakeApply, c1S1, c1S2, balance_of, unique_token_count, lookupA, insertA]
  have hv : total_value (c1S2 o x token oracle tr) price x =
      Except.ok (2000 * 10 ^ 18) := by
    simp [total_value, c1S2, accountTokensAux, sumValues, token_value, lookupA, hp,
      DENOM, DECIMALS, UINT_MAX]
  have h4 : issue_rewards (c1S2 o x token oracle tr) price o =
      Except.ok (c1S3 o x token oracle tr) := by
    unfold issue_rewards
    rw [if_pos (show o = (c1S2 o x token oracle tr).owner from rfl)]
    show payAll price _ [x] = _
    rw [payAll_cons]
    unfold payOne
    rw [hv]
    have hnl : ¬ tr < 2000000000000000000000 := by
      have hn := Nat.not_lt.mpr htr
      norm_num at hn
      exact Nat.not_lt.mpr hn
    simp [hnl, c1S2, c1S3, reward_balance_of, lookupA, insertA, payAll_nil]
  have h5 : reward_balance_of (c1S3 o x token oracle tr) x =
      reward_balance_of (c1S2 o x token oracle tr) x + 2000 * 10 ^ 18 := by
    simp [reward_balance_of, c1S3, c1S2, lookupA]
  exact ⟨_, _, _, h1, h2, hv, h4, h5⟩

/-- Witness for C1 at concrete identities, a concrete oracle price
function and an exactly sufficient treasury. -/
theorem scenario_a_c1_witness :
    ∃ s1 s2 s3,
      set_price_feed_contract (initLedger 0 (2000 * 10 ^ 18)) 0 2 3 = Except.ok s1 ∧
      stake s1 1 2 (10 ^ 18) = Except.ok s2 ∧
      total_value s2 (fun r => if r = 3 then 2000 * 10 ^ 18 else 0) 1 =
        Except.ok (2000 * 10 ^ 18) ∧
      issue_rewards s2 (fun r => if r = 3 then 2000 * 10 ^ 18 else 0) 0 = Except.ok s3 ∧
      reward_balance_of s3 1 = reward_balance_of s2 1 + 2000 * 10 ^ 18 :=
  scenario_a_c1 0 1 2 3 (2000 * 10 ^ 18) (fun r => if r = 3 then 2000 * 10 ^ 18 else 0)
    (by decide) (by decide)

/-- Mirrors `LOCAL_BLOCKCHAIN_ENVIRONMENTS` in
`scripts/helpful_scripts.py`. -/
def LOCAL_BLOCKCHAIN_ENVIRONMENTS : List String :=
  ["hardhat", "development", "ganache", "mainnet-fork"]

/-- The observable outcome of `get_account`: which brownie account
source the function returns — `accounts[index]`, `accounts[0]` on a
local network, `accounts.load(id)`, or a key loaded from the brownie
config via `accounts.add(config["wallets"]["from_key"])`. -/
inductive AccountSource
  | indexed (i : Nat)
  | localDefault
  | loaded (idName : String)
  | fromKey
deriving DecidableEq, Repr

/-- Python truthiness of the optional `index` argument of
`get_account` (both `None` and `0` are falsy in `if index:`). -/
def truthyIndex : Option Nat → Bool
  | none => false
  | some i => i != 0

/-- Python truthiness of the optional `id` argument of `get_account`
(both `None` and the empty string are falsy in `if id:`). -/
def truthyId : Option String → Bool
  | none => false
  | some s => s != ""

/-- Embeds `get_account(index=None, id=None)` from
`scripts/helpful_scripts.py`: guard on the truthiness of `index`, then
the local-network default, then the truthiness of `id`, else load the
key from the brownie config. -/
def get_account (index : Option Nat) (idArg : Option String)
    (activeNetwork : String) : AccountSource :=
  if truthyIndex index then AccountSource.indexed (index.getD 0)
  else if activeNetwork ∈ LOCAL_BLOCKCHAIN_ENVIRONMENTS then AccountSource.localDefault
  else if truthyId idArg then AccountSource.loaded (idArg.getD (""))
  else AccountSource.fromKey

/-- C9: because the guard `if index:` tests truthiness rather than
presence, `get_account(index=0)` is indistinguishable from
`get_account()` on every network, and on a non-local network it does
not return `accounts[0]` but falls through to loading a key from the
config. -/
theorem get_account_zero_index_c9 (net : String) :
    get_account (some 0) none net = get_account none none net ∧
    (net ∉ LOCAL_BLOCKCHAIN_ENVIRONMENTS →
      get_account (some 0) none net = AccountSource.fromKey ∧
      get_account (some 0) none net ≠ AccountSource.indexed 0 ∧
      get_account (some 0) none net ≠ AccountSource.localDefault) := by
  constructor
  · simp [get_account, truthyIndex]
  · intro h
    refine ⟨?_, ?_, ?_⟩ <;> simp [get_account, truthyIndex, truthyId, h]

/-- Witness for C9 on the non-local network named kovan. -/
theorem get_account_zero_index_c9_witness :
    get_account (some 0) none ("kovan") = get_account none none ("kovan") ∧
    (("kovan") ∉ LOCAL_BLOCKCHAIN_ENVIRONMENTS →
      get_account (some 0) none ("kovan") = AccountSource.fromKey ∧
      get_account (some 0) none ("kovan") ≠ AccountSource.indexed 0 ∧
      get_account (some 0) none ("kovan") ≠ AccountSource.localDefault) :=
  get_account_zero_index_c9 ("kovan")

/-- A Python exception surfaced by the helper scripts: a dict lookup on
a missing key raises `KeyError`. -/
inductive PyError
  | KeyError (k : String)
deriving DecidableEq, Repr

/-- Mirrors the `contract_to_mock` dict in
`scripts/helpful_scripts.py`: contract name to mock contract type. -/
def contract_to_mock : List (String × String) :=
  [("eth_usd_price_feed", "MockV3Aggregator"),
   ("dai_usd_price_feed", "MockV3Aggregator"),
   ("weth_token", "MockWETH"),
   ("fau_token", "MockDAI")]

/-- The brownie environment the helper scripts run against: the active
network, the most recently deployed instance per mock contract type
(after `deploy_mocks` if the container was empty), the per-network
contract addresses of the brownie config, and the account resolved by
`get_account()`. Contract instances and accounts are opaque `Nat`. -/
structure BrownieEnv where
  activeNetwork : String
  lastDeployed : String → Nat
  configAddress : String → String → Option Nat
  defaultAccount : Nat

/-- Embeds `get_contract` from `scripts/helpful_scripts.py`: the dict
lookup `contract_to_mock[contract_name]` comes first and raises
`KeyError` on a missing key; on a local network the most recent mock is
returned, otherwise the address is read from the brownie config (a
missing config entry is again a `KeyError`). -/
def get_contract (env : BrownieEnv) (contract_name : String) : Except PyError Nat :=
  match lookupA contract_to_mock contract_name with
  | none => Except.error (PyError.KeyError contract_name)
  | some contract_type =>
      if env.activeNetwork ∈ LOCAL_BLOCKCHAIN_ENVIRONMENTS then
        Except.ok (env.lastDeployed contract_type)
      else
        match env.configAddress env.activeNetwork contract_name with
        | none => Except.error (PyError.KeyError contract_name)
        | some addr => Except.ok addr

/-- The transfer performed at the end of `fund_with_link`:
`link_token.transfer(contract_address, amount, from account)`. -/
structure LinkTransfer where
  token : Nat
  recipient : Nat
  amount : Nat
  sender : Nat
deriving DecidableEq, Repr

/-- Embeds `fund_with_link` from `scripts/helpful_scripts.py`: resolve
the account default, resolve `link_token` via
`get_contract("link_token")` when not supplied, then perform the
funding transfer. -/
def fund_with_link (env : BrownieEnv) (contract_address : Nat)
    (account : Option Nat) (link_token : Option Nat) (amount : Nat) :
    Except PyError LinkTransfer :=
  let acct := account.getD env.defaultAccount
  match link_token with
  | some lt =>
      Except.ok { token := lt, recipient := contract_address, amount := amount, sender := acct }
  | none =>
      match get_contract env ("link_token") with
      | Except.error e => Except.error e
      | Except.ok lt =>
          Except.ok { token := lt, recipient := contract_address, amount := amount, sender := acct }

/-- C10: without an explicit `link_token`, `fund_with_link` always
fails with `KeyError("link_token")` before any transfer is attempted,
because `"link_token"` is not a key of `contract_to_mock`; the funding
transfer is reached exactly when a `link_token` is passed explicitly. -/
theorem fund_with_link_keyerror_c10 (env : BrownieEnv) (ca : Nat)
    (acc : Option Nat) (amt : Nat) :
    fund_with_link env ca acc none amt = Except.error (PyError.KeyError ("link_token")) ∧
    (∀ lt, fund_with_link env ca acc (some lt) amt =
      Except.ok { token := lt, recipient := ca, amount := amt,
                  sender := acc.getD env.defaultAccount }) := by
  constructor
  · have hlk : lookupA contract_to_mock ("link_token") = none := by decide
    simp [fund_with_link, get_contract, hlk]
  · intro lt
    rfl

end StakeYield
